import Mathlib

/-!
Shallow embedding of the HOAFiles Django application (HOAFiles/models.py and
HOAFiles/views.py).  The database is modelled as a `DBState` holding the rows
of each table as lists; each request handler becomes a pure function from the
state (and the parsed request parameters) to a result value and a new state.
Django `auto_now` / `auto_now_add` timestamps are modelled by passing the
current time `now : Nat` to the handlers that write them.  Python falsiness
checks (`if not x`) on optional JSON fields are modelled by `pyFalsyStr` /
`pyFalsyNat`.
-/

/-- models.py `User`: unique id (pk), unique email, password hash. -/
structure User where
  id : Nat
  email : String
  passwordHash : String
  deriving Repr, DecidableEq

/-- models.py `HOAGroup`: unique id (pk), unique name, unique owner email. -/
structure HOAGroup where
  id : Nat
  name : String
  owner_email : String
  deriving Repr, DecidableEq

/-- models.py `HOAMembership`: links a user to a group with a role string
(`CharField` with choices admin/member) and a join timestamp. -/
structure HOAMembership where
  user_id : Nat
  hoa_group_id : Nat
  role : String
  joined_at : Nat
  deriving Repr, DecidableEq

/-- models.py `Document`: title, content, owning group, timestamps. -/
structure Document where
  id : Nat
  title : String
  content : String
  hoa_group_id : Nat
  created_at : Nat
  updated_at : Nat
  deriving Repr, DecidableEq

/-- The database: one list of rows per table, plus autoincrement counters for
the primary keys that the handlers create. -/
structure DBState where
  users : List User
  hoa_groups : List HOAGroup
  memberships : List HOAMembership
  documents : List Document
  next_user_id : Nat
  next_group_id : Nat
  next_document_id : Nat
  deriving Repr, DecidableEq

/-- Python `not x` on an optional string field: true for absent or empty. -/
def pyFalsyStr : Option String → Bool
  | none => true
  | some s => s == ("")

/-- Python `not x` on an optional numeric id: true for absent or zero. -/
def pyFalsyNat : Option Nat → Bool
  | none => true
  | some n => n == 0

/-- `User.objects.get(pk=uid)` as a partial lookup. -/
def findUser (s : DBState) (uid : Nat) : Option User :=
  s.users.find? (fun u => u.id == uid)

/-- `User.objects.get(email=e)` as a partial lookup. -/
def findUserByEmail (s : DBState) (e : String) : Option User :=
  s.users.find? (fun u => u.email == e)

/-- `HOAGroup.objects.get(pk=gid)` as a partial lookup. -/
def findGroup (s : DBState) (gid : Nat) : Option HOAGroup :=
  s.hoa_groups.find? (fun g => g.id == gid)

/-- `Document.objects.get(pk=did, hoa_group=g)`: the document is resolved
within the given group. -/
def findDocInGroup (s : DBState) (did : Nat) (g : HOAGroup) : Option Document :=
  s.documents.find? (fun d => d.id == did && d.hoa_group_id == g.id)

/-- models.py `HOAGroup.is_admin`: a membership row with this user, this
group and role `admin` exists. -/
def is_admin (s : DBState) (g : HOAGroup) (u : User) : Bool :=
  s.memberships.any (fun m => m.user_id == u.id && m.hoa_group_id == g.id && m.role == ("admin"))

/-- models.py `HOAGroup.get_user_role`: role of the first membership row for
the pair, if any. -/
def get_user_role (s : DBState) (g : HOAGroup) (u : User) : Option String :=
  (s.memberships.find? (fun m => m.user_id == u.id && m.hoa_group_id == g.id)).map
    (fun m => m.role)

/-- Ids of the groups the user belongs to
(`user.hoa_groups.values_list(id)` through the membership table). -/
def user_group_ids (s : DBState) (u : User) : List Nat :=
  (s.memberships.filter (fun m => m.user_id == u.id)).map (fun m => m.hoa_group_id)

/-- Result of views.py `register_user` (POST branch). -/
inductive RegisterResult
  | missingFields
  | duplicateEmail
  | ok (id : Nat) (email : String)
  deriving Repr, DecidableEq

/-- views.py `register_user`, POST branch; `hash` models Django
`set_password` one-way hashing. -/
def register_user (hash : String → String) (s : DBState)
    (email password : Option String) : RegisterResult × DBState :=
  if pyFalsyStr email || pyFalsyStr password then (.missingFields, s)
  else
    let e := email.getD ("")
    let p := password.getD ("")
    if s.users.any (fun u => u.email == e) then (.duplicateEmail, s)
    else
      let u : User := ⟨s.next_user_id, e, hash p⟩
      (.ok u.id u.email,
        { s with users := s.users ++ [u], next_user_id := s.next_user_id + 1 })

/-- Result of views.py `login_user`: a success carries only the id and the
email of the user; both failure constructors carry nothing. -/
inductive LoginResult
  | missingFields
  | invalidCredentials
  | ok (id : Nat) (email : String)
  deriving Repr, DecidableEq

/-- views.py `login_user`, POST branch; `check` models Django
`check_password` against the stored hash. -/
def login_user (check : String → String → Bool) (s : DBState)
    (email password : Option String) : LoginResult :=
  if pyFalsyStr email || pyFalsyStr password then .missingFields
  else
    let e := email.getD ("")
    let p := password.getD ("")
    match findUserByEmail s e with
    | none => .invalidCredentials
    | some u => if check p u.passwordHash then .ok u.id u.email else .invalidCredentials

/-- Result of views.py `user_hoa_groups`, POST branch. -/
inductive CreateGroupResult
  | userNotFound
  | missingFields
  | duplicateName
  | duplicateOwnerEmail
  | ok (g : HOAGroup)
  deriving Repr, DecidableEq

/-- views.py `user_hoa_groups`, POST branch: create a group and an admin
membership for the creator. -/
def create_hoa_group (s : DBState) (now : Nat) (uid : Nat)
    (name owner_email : Option String) : CreateGroupResult × DBState :=
  match findUser s uid with
  | none => (.userNotFound, s)
  | some user =>
    if pyFalsyStr name || pyFalsyStr owner_email then (.missingFields, s)
    else
      let n := name.getD ("")
      let oe := owner_email.getD ("")
      if s.hoa_groups.any (fun g => g.name == n) then (.duplicateName, s)
      else if s.hoa_groups.any (fun g => g.owner_email == oe) then (.duplicateOwnerEmail, s)
      else
        let g : HOAGroup := ⟨s.next_group_id, n, oe⟩
        let m : HOAMembership := ⟨user.id, g.id, "admin", now⟩
        (.ok g,
          { s with hoa_groups := s.hoa_groups ++ [g],
                   memberships := s.memberships ++ [m],
                   next_group_id := s.next_group_id + 1 })

/-- Boolean prefix test on character lists. -/
def isPrefixB : List Char → List Char → Bool
  | [], _ => true
  | _ :: _, [] => false
  | a :: as, b :: bs => a == b && isPrefixB as bs

/-- Boolean substring test on character lists. -/
def containsSub (needle : List Char) : List Char → Bool
  | [] => needle.isEmpty
  | b :: bs => isPrefixB needle (b :: bs) || containsSub needle bs

/-- Leading-whitespace removal on a character list. -/
def dropLeadingWS : List Char → List Char
  | [] => []
  | c :: cs => if c.isWhitespace then dropLeadingWS cs else c :: cs

/-- Python `str.strip()`: remove leading and trailing whitespace. -/
def pyStrip (s : String) : String :=
  ⟨dropLeadingWS ((dropLeadingWS s.data.reverse).reverse)⟩

/-- Python `str.lower()` / SQL lowercasing used by `icontains`. -/
def strToLower (s : String) : String :=
  ⟨s.data.map Char.toLower⟩

/-- Django `name__icontains=q`: case-insensitive substring match. -/
def icontains (name q : String) : Bool :=
  containsSub (strToLower q).data (strToLower name).data

/-- Result of views.py `search_hoa_groups`. -/
inductive SearchResult
  | userNotFound
  | ok (gs : List HOAGroup)
  deriving Repr, DecidableEq

/-- views.py `search_hoa_groups`: strip the query, empty query gives an empty
list, otherwise case-insensitive name match excluding the groups the user
already belongs to, capped at 10 results. -/
def search_hoa_groups (s : DBState) (uid : Nat) (q : String) : SearchResult :=
  match findUser s uid with
  | none => .userNotFound
  | some user =>
    let query := pyStrip q
    if query == ("") then .ok []
    else
      let ids := user_group_ids s user
      .ok ((s.hoa_groups.filter
        (fun g => icontains g.name query && !(ids.contains g.id))).take 10)

/-- Result of views.py `join_hoa_group`. -/
inductive JoinResult
  | userNotFound
  | groupNotFound
  | alreadyMember
  | ok (g : HOAGroup)
  deriving Repr, DecidableEq

/-- views.py `join_hoa_group`, POST branch: fails when a membership for the
pair already exists, otherwise creates a member-role membership. -/
def join_hoa_group (s : DBState) (now : Nat) (uid gid : Nat) : JoinResult × DBState :=
  match findUser s uid with
  | none => (.userNotFound, s)
  | some user =>
    match findGroup s gid with
    | none => (.groupNotFound, s)
    | some g =>
      if s.memberships.any (fun m => m.user_id == user.id && m.hoa_group_id == g.id) then
        (.alreadyMember, s)
      else
        (.ok g, { s with memberships := s.memberships ++ [⟨user.id, g.id, "member", now⟩] })

/-- `documents.all().order_by(minus created_at)`: sort by creation time,
most recent first. -/
def orderByCreatedDesc (l : List Document) : List Document :=
  List.insertionSort (fun a b => b.created_at ≤ a.created_at) l

instance : DecidableRel (fun a b : Document => b.created_at ≤ a.created_at) :=
  fun _ _ => Nat.decLe _ _

instance : IsTotal Document (fun a b => b.created_at ≤ a.created_at) :=
  ⟨fun a b => le_total b.created_at a.created_at⟩

instance : IsTrans Document (fun a b => b.created_at ≤ a.created_at) :=
  ⟨fun _ _ _ hab hbc => le_trans hbc hab⟩

/-- The documents of a group as listed by views.py `hoa_group_documents`
(GET branch). -/
def group_documents (s : DBState) (g : HOAGroup) : List Document :=
  orderByCreatedDesc (s.documents.filter (fun d => d.hoa_group_id == g.id))

/-- Result of views.py `hoa_group_documents`, GET branch. -/
inductive ListDocsResult
  | groupNotFound
  | ok (docs : List Document)
  deriving Repr, DecidableEq

/-- views.py `hoa_group_documents`, GET branch. -/
def list_documents (s : DBState) (gid : Nat) : ListDocsResult :=
  match findGroup s gid with
  | none => .groupNotFound
  | some g => .ok (group_documents s g)

/-- Result of views.py `hoa_group_documents`, POST branch. -/
inductive CreateDocResult
  | groupNotFound
  | userIdRequired
  | userNotFound
  | notAdmin
  | missingTitle
  | ok (d : Document)
  deriving Repr, DecidableEq

/-- views.py `hoa_group_documents`, POST branch: admin-gated document
creation; absent `content` defaults to the empty string. -/
def create_document (s : DBState) (now : Nat) (gid : Nat)
    (title content : Option String) (user_id : Option Nat) : CreateDocResult × DBState :=
  match findGroup s gid with
  | none => (.groupNotFound, s)
  | some g =>
    let c := content.getD ("")
    if pyFalsyNat user_id then (.userIdRequired, s)
    else
      match findUser s (user_id.getD 0) with
      | none => (.userNotFound, s)
      | some u =>
        if !(is_admin s g u) then (.notAdmin, s)
        else if pyFalsyStr title then (.missingTitle, s)
        else
          let d : Document := ⟨s.next_document_id, title.getD (""), c, g.id, now, now⟩
          (.ok d,
            { s with documents := s.documents ++ [d],
                     next_document_id := s.next_document_id + 1 })

/-- Result of views.py `delete_document`, DELETE branch. -/
inductive DeleteDocResult
  | groupNotFound
  | documentNotFound
  | userIdRequired
  | userNotFound
  | notAdmin
  | ok
  deriving Repr, DecidableEq

/-- views.py `delete_document`, DELETE branch: the document is resolved
within the group before any user or admin check. -/
def delete_document (s : DBState) (gid did : Nat)
    (user_id : Option Nat) : DeleteDocResult × DBState :=
  match findGroup s gid with
  | none => (.groupNotFound, s)
  | some g =>
    match findDocInGroup s did g with
    | none => (.documentNotFound, s)
    | some doc =>
      if pyFalsyNat user_id then (.userIdRequired, s)
      else
        match findUser s (user_id.getD 0) with
        | none => (.userNotFound, s)
        | some u =>
          if !(is_admin s g u) then (.notAdmin, s)
          else (.ok, { s with documents := s.documents.filter (fun d => !(d.id == doc.id)) })

/-- Result of views.py `delete_document`, PUT branch. -/
inductive UpdateDocResult
  | groupNotFound
  | documentNotFound
  | userIdRequired
  | userNotFound
  | notAdmin
  | missingTitle
  | ok (d : Document)
  deriving Repr, DecidableEq

/-- views.py `delete_document`, PUT branch: admin-gated document update;
`save()` refreshes the `auto_now` updated timestamp. -/
def update_document (s : DBState) (now : Nat) (gid did : Nat)
    (title content : Option String) (user_id : Option Nat) : UpdateDocResult × DBState :=
  match findGroup s gid with
  | none => (.groupNotFound, s)
  | some g =>
    match findDocInGroup s did g with
    | none => (.documentNotFound, s)
    | some doc =>
      let c := content.getD ("")
      if pyFalsyNat user_id then (.userIdRequired, s)
      else
        match findUser s (user_id.getD 0) with
        | none => (.userNotFound, s)
        | some u =>
          if !(is_admin s g u) then (.notAdmin, s)
          else if pyFalsyStr title then (.missingTitle, s)
          else
            let d2 : Document :=
              { doc with title := title.getD (""), content := c, updated_at := now }
            (.ok d2,
              { s with documents := s.documents.map (fun d => if d.id == doc.id then d2 else d) })

/-- Deleting a `User` row: models.py declares `on_delete=CASCADE` on
`HOAMembership.user`, so the membership rows of that user are removed with it. -/
def delete_user_cascade (s : DBState) (uid : Nat) : DBState :=
  { s with users := s.users.filter (fun u => !(u.id == uid)),
           memberships := s.memberships.filter (fun m => !(m.user_id == uid)) }

/-- Deleting an `HOAGroup` row: models.py declares `on_delete=CASCADE` on
`HOAMembership.hoa_group` and on `Document.hoa_group`, so the group
membership rows and document rows are removed with it. -/
def delete_group_cascade (s : DBState) (gid : Nat) : DBState :=
  { s with hoa_groups := s.hoa_groups.filter (fun g => !(g.id == gid)),
           memberships := s.memberships.filter (fun m => !(m.hoa_group_id == gid)),
           documents := s.documents.filter (fun d => !(d.hoa_group_id == gid)) }

/-- Two membership rows for the same (user, group) pair. -/
def samePair (m1 m2 : HOAMembership) : Prop :=
  m1.user_id = m2.user_id ∧ m1.hoa_group_id = m2.hoa_group_id

/-- models.py `unique_together = [user, hoa_group]`: no two membership rows
share a (user, group) pair. -/
def MemUnique (s : DBState) : Prop :=
  s.memberships.Pairwise (fun m1 m2 => ¬ samePair m1 m2)

/-- Autoincrement discipline: every stored group id, and every group id a
membership row references, is below the next id the database will assign. -/
def GroupIdsFresh (s : DBState) : Prop :=
  (∀ g ∈ s.hoa_groups, g.id < s.next_group_id) ∧
  (∀ m ∈ s.memberships, m.hoa_group_id < s.next_group_id)

/-- Well-formed database state. -/
def WF (s : DBState) : Prop := MemUnique s ∧ GroupIdsFresh s

instance (m1 m2 : HOAMembership) : Decidable (samePair m1 m2) := by
  unfold samePair
  infer_instance

instance (s : DBState) : Decidable (MemUnique s) := by
  unfold MemUnique
  infer_instance

instance (s : DBState) : Decidable (GroupIdsFresh s) := by
  unfold GroupIdsFresh
  infer_instance

instance (s : DBState) : Decidable (WF s) := by
  unfold WF
  infer_instance

/-- A small concrete database used to instantiate the theorems: user 1 is
admin of group 1, user 2 is a plain member of group 1, user 3 belongs to no
group; document 1 lives in group 1 and document 2 in group 2. -/
def sampleState : DBState :=
  { users := [⟨1, "a@x.com", "h1"⟩, ⟨2, "b@x.com", "h2"⟩, ⟨3, "c@x.com", "h3"⟩],
    hoa_groups := [⟨1, "Oak HOA", "owner@x.com"⟩, ⟨2, "Sunset HOA", "sun@x.com"⟩],
    memberships := [⟨1, 1, "admin", 5⟩, ⟨2, 1, "member", 6⟩],
    documents := [⟨1, "Rules", "be nice", 1, 10, 10⟩, ⟨2, "Minutes", "", 2, 11, 11⟩],
    next_user_id := 4,
    next_group_id := 3,
    next_document_id := 3 }

/-- Group 1 of the sample database. -/
def sampleGroup1 : HOAGroup := ⟨1, "Oak HOA", "owner@x.com"⟩

/-- Group 2 of the sample database. -/
def sampleGroup2 : HOAGroup := ⟨2, "Sunset HOA", "sun@x.com"⟩

/-- User 1 of the sample database (admin of group 1). -/
def sampleUser1 : User := ⟨1, "a@x.com", "h1"⟩

/-- User 2 of the sample database (member of group 1). -/
def sampleUser2 : User := ⟨2, "b@x.com", "h2"⟩

/-- User 3 of the sample database (no memberships). -/
def sampleUser3 : User := ⟨3, "c@x.com", "h3"⟩

theorem findGroup_mem {s : DBState} {gid : Nat} {g : HOAGroup}
    (h : findGroup s gid = some g) : g ∈ s.hoa_groups :=
  List.mem_of_find?_eq_some h

theorem findDocInGroup_some {s : DBState} {did : Nat} {g : HOAGroup} {d : Document}
    (h : findDocInGroup s did g = some d) :
    d ∈ s.documents ∧ d.id = did ∧ d.hoa_group_id = g.id := by
  refine ⟨List.mem_of_find?_eq_some h, ?_⟩
  have hp := List.find?_some h
  simpa [Bool.and_eq_true, beq_iff_eq] using hp

theorem is_admin_iff (s : DBState) (g : HOAGroup) (u : User) :
    is_admin s g u = true ↔
      ∃ m ∈ s.memberships, m.user_id = u.id ∧ m.hoa_group_id = g.id ∧ m.role = "admin" := by
  simp [is_admin, List.any_eq_true, Bool.and_eq_true, beq_iff_eq, and_assoc]

/-- C1: a document mutation (create, update or delete) succeeds only when the
acting user holds an admin-role membership in the target group; a non-member
and a member-role member are treated identically (`is_admin` is false for
both), the operation fails with the single notAdmin outcome, and the state is
unchanged, so nothing is created, changed or deleted. -/
theorem c1_document_mutation_requires_admin
    (s : DBState) (now gid did : Nat) (g : HOAGroup) (u : User)
    (title content : Option String)
    (hg : findGroup s gid = some g)
    (hu0 : u.id ≠ 0)
    (hu : findUser s u.id = some u) :
    (is_admin s g u = true ↔
      ∃ m ∈ s.memberships, m.user_id = u.id ∧ m.hoa_group_id = g.id ∧ m.role = "admin") ∧
    (is_admin s g u = false →
      create_document s now gid title content (some u.id) = (.notAdmin, s)) ∧
    (is_admin s g u = false → ∀ doc, findDocInGroup s did g = some doc →
      update_document s now gid did title content (some u.id) = (.notAdmin, s) ∧
      delete_document s gid did (some u.id) = (.notAdmin, s)) ∧
    (∀ d s2, create_document s now gid title content (some u.id) = (.ok d, s2) →
      is_admin s g u = true) ∧
    (∀ d s2, update_document s now gid did title content (some u.id) = (.ok d, s2) →
      is_admin s g u = true) ∧
    (∀ s2, delete_document s gid did (some u.id) = (.ok, s2) →
      is_admin s g u = true) := by
  have hcreate : is_admin s g u = false →
      create_document s now gid title content (some u.id) = (.notAdmin, s) := by
    intro ha
    simp [create_document, hg, pyFalsyNat, hu0, hu, ha]
  have hupd : is_admin s g u = false → ∀ doc, findDocInGroup s did g = some doc →
      update_document s now gid did title content (some u.id) = (.notAdmin, s) := by
    intro ha doc hdoc
    simp [update_document, hg, hdoc, pyFalsyNat, hu0, hu, ha]
  have hdel : is_admin s g u = false → ∀ doc, findDocInGroup s did g = some doc →
      delete_document s gid did (some u.id) = (.notAdmin, s) := by
    intro ha doc hdoc
    simp [delete_document, hg, hdoc, pyFalsyNat, hu0, hu, ha]
  refine ⟨is_admin_iff s g u, hcreate, fun ha doc hdoc => ⟨hupd ha doc hdoc, hdel ha doc hdoc⟩,
    ?_, ?_, ?_⟩
  · intro d s2 hok
    by_cases ha : is_admin s g u = true
    · exact ha
    · rw [hcreate (Bool.eq_false_iff.mpr (fun hc => ha hc))] at hok
      exact absurd hok (by simp)
  · intro d s2 hok
    by_cases ha : is_admin s g u = true
    · exact ha
    · cases hdoc : findDocInGroup s did g with
      | none => simp [update_document, hg, hdoc] at hok
      | some doc =>
        rw [hupd (Bool.eq_false_iff.mpr (fun hc => ha hc)) doc hdoc] at hok
        exact absurd hok (by simp)
  · intro s2 hok
    by_cases ha : is_admin s g u = true
    · exact ha
    · cases hdoc : findDocInGroup s did g with
      | none => simp [delete_document, hg, hdoc] at hok
      | some doc =>
        rw [hdel (Bool.eq_false_iff.mpr (fun hc => ha hc)) doc hdoc] at hok
        exact absurd hok (by simp)

/-- Witness for C1: in the sample database, user 2 holds only a member-role
membership in group 1, and document creation fails with notAdmin, leaving the
state unchanged. -/
theorem c1_witness :
    create_document sampleState 20 1 (some ("T")) none (some sampleUser2.id) =
      (.notAdmin, sampleState) :=
  (c1_document_mutation_requires_admin sampleState 20 1 1 sampleGroup1 sampleUser2
    (some ("T")) none (by decide) (by decide) (by decide)).2.1 (by decide)

theorem pairwise_count_le {l : List HOAMembership}
    (hp : l.Pairwise (fun m1 m2 => ¬ samePair m1 m2)) (a b : Nat) :
    (l.filter (fun m => m.user_id == a && m.hoa_group_id == b)).length ≤ 1 := by
  induction l with
  | nil => simp
  | cons m t ih =>
    rcases List.pairwise_cons.mp hp with ⟨hm, ht⟩
    by_cases hmp : (m.user_id == a && m.hoa_group_id == b) = true
    · have hta : t.filter (fun x => x.user_id == a && x.hoa_group_id == b) = [] := by
        rw [List.filter_eq_nil_iff]
        intro x hx hxp
        simp [Bool.and_eq_true, beq_iff_eq] at hmp hxp
        exact hm x hx ⟨hmp.1.trans hxp.1.symm, hmp.2.trans hxp.2.symm⟩
      simp [List.filter_cons, hmp, hta]
    · simp only [List.filter_cons, hmp, if_false, Bool.false_eq_true]
      exact ih ht

theorem memUnique_append {l : List HOAMembership} {m : HOAMembership}
    (hp : l.Pairwise (fun m1 m2 => ¬ samePair m1 m2))
    (hnew : ∀ x ∈ l, ¬ samePair x m) :
    (l ++ [m]).Pairwise (fun m1 m2 => ¬ samePair m1 m2) := by
  apply List.pairwise_append.mpr
  refine ⟨hp, by simp, ?_⟩
  intro a ha b hb
  simp only [List.mem_singleton] at hb
  subst hb
  exact hnew a ha

theorem join_preserves_wf (s : DBState) (now uid gid : Nat) (hwf : WF s) :
    WF (join_hoa_group s now uid gid).2 := by
  rcases hwf with ⟨hmu, hgb, hmb⟩
  unfold join_hoa_group
  cases hu : findUser s uid with
  | none => exact ⟨hmu, hgb, hmb⟩
  | some u =>
    cases hg : findGroup s gid with
    | none => exact ⟨hmu, hgb, hmb⟩
    | some g =>
      by_cases hany :
          s.memberships.any (fun m => m.user_id == u.id && m.hoa_group_id == g.id) = true
      · simp only [hany, if_true]
        exact ⟨hmu, hgb, hmb⟩
      · simp only [hany, if_false, Bool.false_eq_true]
        refine ⟨?_, ?_, ?_⟩
        · apply memUnique_append hmu
          intro x hx hsp
          exact hany (List.any_eq_true.mpr ⟨x, hx, by simp [hsp.1, hsp.2]⟩)
        · exact hgb
        · intro m hm
          rcases List.mem_append.mp hm with hm | hm
          · exact hmb m hm
          · simp only [List.mem_singleton] at hm
            subst hm
            exact hgb g (findGroup_mem hg)

theorem create_group_preserves_wf (s : DBState) (now uid : Nat)
    (name oe : Option String) (hwf : WF s) :
    WF (create_hoa_group s now uid name oe).2 := by
  rcases hwf with ⟨hmu, hgb, hmb⟩
  unfold create_hoa_group
  split
  · exact ⟨hmu, hgb, hmb⟩
  · split
    · exact ⟨hmu, hgb, hmb⟩
    · dsimp only
      split
      · exact ⟨hmu, hgb, hmb⟩
      · split
        · exact ⟨hmu, hgb, hmb⟩
        · refine ⟨?_, ?_, ?_⟩
          · apply memUnique_append hmu
            intro x hx hsp
            have hlt := hmb x hx
            rw [hsp.2] at hlt
            exact absurd hlt (lt_irrefl _)
          · intro g2 hg2
            rcases List.mem_append.mp hg2 with hg2 | hg2
            · exact Nat.lt_succ_of_lt (hgb g2 hg2)
            · simp only [List.mem_singleton] at hg2
              subst hg2
              exact Nat.lt_succ_self _
          · intro m hm
            rcases List.mem_append.mp hm with hm | hm
            · exact Nat.lt_succ_of_lt (hmb m hm)
            · simp only [List.mem_singleton] at hm
              subst hm
              exact Nat.lt_succ_self _

theorem register_preserves_wf (hash : String → String) (s : DBState)
    (email pw : Option String) (hwf : WF s) :
    WF (register_user hash s email pw).2 := by
  rcases hwf with ⟨hmu, hgb, hmb⟩
  unfold register_user
  split
  · exact ⟨hmu, hgb, hmb⟩
  · dsimp only
    split
    · exact ⟨hmu, hgb, hmb⟩
    · exact ⟨hmu, hgb, hmb⟩

theorem create_doc_preserves_wf (s : DBState) (now gid : Nat)
    (title content : Option String) (user_id : Option Nat) (hwf : WF s) :
    WF (create_document s now gid title content user_id).2 := by
  rcases hwf with ⟨hmu, hgb, hmb⟩
  unfold create_document
  split
  · exact ⟨hmu, hgb, hmb⟩
  · split
    · exact ⟨hmu, hgb, hmb⟩
    · split
      · exact ⟨hmu, hgb, hmb⟩
      · split
        · exact ⟨hmu, hgb, hmb⟩
        · split
          · exact ⟨hmu, hgb, hmb⟩
          · exact ⟨hmu, hgb, hmb⟩

theorem update_doc_preserves_wf (s : DBState) (now gid did : Nat)
    (title content : Option String) (user_id : Option Nat) (hwf : WF s) :
    WF (update_document s now gid did title content user_id).2 := by
  rcases hwf with ⟨hmu, hgb, hmb⟩
  unfold update_document
  split
  · exact ⟨hmu, hgb, hmb⟩
  · split
    · exact ⟨hmu, hgb, hmb⟩
    · split
      · exact ⟨hmu, hgb, hmb⟩
      · split
        · exact ⟨hmu, hgb, hmb⟩
        · split
          · exact ⟨hmu, hgb, hmb⟩
          · split
            · exact ⟨hmu, hgb, hmb⟩
            · exact ⟨hmu, hgb, hmb⟩

theorem delete_doc_preserves_wf (s : DBState) (gid did : Nat)
    (user_id : Option Nat) (hwf : WF s) :
    WF (delete_document s gid did user_id).2 := by
  rcases hwf with ⟨hmu, hgb, hmb⟩
  unfold delete_document
  split
  · exact ⟨hmu, hgb, hmb⟩
  · split
    · exact ⟨hmu, hgb, hmb⟩
    · split
      · exact ⟨hmu, hgb, hmb⟩
      · split
        · exact ⟨hmu, hgb, hmb⟩
        · split
          · exact ⟨hmu, hgb, hmb⟩
          · exact ⟨hmu, hgb, hmb⟩

theorem cascade_user_preserves_wf (s : DBState) (uid : Nat) (hwf : WF s) :
    WF (delete_user_cascade s uid) := by
  rcases hwf with ⟨hmu, hgb, hmb⟩
  refine ⟨List.Pairwise.sublist (List.filter_sublist _) hmu, hgb, ?_⟩
  intro m hm
  exact hmb m (List.mem_of_mem_filter hm)

theorem cascade_group_preserves_wf (s : DBState) (gid : Nat) (hwf : WF s) :
    WF (delete_group_cascade s gid) := by
  rcases hwf with ⟨hmu, hgb, hmb⟩
  refine ⟨List.Pairwise.sublist (List.filter_sublist _) hmu, ?_, ?_⟩
  · intro g hg
    exact hgb g (List.mem_of_mem_filter hg)
  · intro m hm
    exact hmb m (List.mem_of_mem_filter hm)

/-- C2: in a well-formed state there is at most one membership row per
(user, group) pair; joining a group the user already has a membership in
fails with alreadyMember and leaves the state untouched (no second row, no
role change); and every operation of the application preserves
well-formedness, so the invariant is maintained. -/
theorem c2_membership_unique_per_pair
    (s : DBState) (hash : String → String) (now uid gid did : Nat)
    (name oe email pw title content : Option String) (user_id : Option Nat)
    (hwf : WF s) :
    (∀ a b,
      (s.memberships.filter (fun m => m.user_id == a && m.hoa_group_id == b)).length ≤ 1) ∧
    (∀ u g, findUser s uid = some u → findGroup s gid = some g →
      (∃ m ∈ s.memberships, m.user_id = u.id ∧ m.hoa_group_id = g.id) →
      join_hoa_group s now uid gid = (.alreadyMember, s)) ∧
    WF (join_hoa_group s now uid gid).2 ∧
    WF (create_hoa_group s now uid name oe).2 ∧
    WF (register_user hash s email pw).2 ∧
    WF (create_document s now gid title content user_id).2 ∧
    WF (update_document s now gid did title content user_id).2 ∧
    WF (delete_document s gid did user_id).2 ∧
    WF (delete_user_cascade s uid) ∧
    WF (delete_group_cascade s gid) := by
  refine ⟨fun a b => pairwise_count_le hwf.1 a b, ?_,
    join_preserves_wf s now uid gid hwf,
    create_group_preserves_wf s now uid name oe hwf,
    register_preserves_wf hash s email pw hwf,
    create_doc_preserves_wf s now gid title content user_id hwf,
    update_doc_preserves_wf s now gid did title content user_id hwf,
    delete_doc_preserves_wf s gid did user_id hwf,
    cascade_user_preserves_wf s uid hwf,
    cascade_group_preserves_wf s gid hwf⟩
  intro u g hu hg hex
  have hany : s.memberships.any (fun m => m.user_id == u.id && m.hoa_group_id == g.id) = true := by
    rcases hex with ⟨m, hm, h1, h2⟩
    exact List.any_eq_true.mpr ⟨m, hm, by simp [h1, h2]⟩
  simp [join_hoa_group, hu, hg, hany]

/-- Witness for C2: user 2 already belongs to group 1 in the sample database,
so a second join fails with alreadyMember and changes nothing. -/
theorem c2_witness :
    join_hoa_group sampleState 30 2 1 = (.alreadyMember, sampleState) :=
  (c2_membership_unique_per_pair sampleState (fun x => x) 30 2 1 1
      none none none none none none none (by decide)).2.1
    sampleUser2 sampleGroup1 (by decide) (by decide)
    ⟨⟨2, 1, "member", 6⟩, by decide, rfl, rfl⟩

/-- C3: deleting a user removes exactly the membership rows of that user, and
deleting a group removes exactly the membership and document rows of that group;
afterwards no membership or document row references the deleted parent. -/
theorem c3_cascade_deletes (s : DBState) (uid gid : Nat) :
    (∀ m ∈ (delete_user_cascade s uid).memberships, m.user_id ≠ uid) ∧
    (∀ m ∈ s.memberships, m.user_id ≠ uid → m ∈ (delete_user_cascade s uid).memberships) ∧
    (∀ u ∈ (delete_user_cascade s uid).users, u.id ≠ uid) ∧
    (∀ m ∈ (delete_group_cascade s gid).memberships, m.hoa_group_id ≠ gid) ∧
    (∀ m ∈ s.memberships, m.hoa_group_id ≠ gid → m ∈ (delete_group_cascade s gid).memberships) ∧
    (∀ d ∈ (delete_group_cascade s gid).documents, d.hoa_group_id ≠ gid) ∧
    (∀ d ∈ s.documents, d.hoa_group_id ≠ gid → d ∈ (delete_group_cascade s gid).documents) ∧
    (∀ g ∈ (delete_group_cascade s gid).hoa_groups, g.id ≠ gid) := by
  refine ⟨?_, ?_, ?_, ?_, ?_, ?_, ?_, ?_⟩
  · intro m hm
    simp only [delete_user_cascade, List.mem_filter] at hm
    simpa using hm.2
  · intro m hm hne
    simp only [delete_user_cascade, List.mem_filter]
    exact ⟨hm, by simpa using hne⟩
  · intro u hu
    simp only [delete_user_cascade, List.mem_filter] at hu
    simpa using hu.2
  · intro m hm
    simp only [delete_group_cascade, List.mem_filter] at hm
    simpa using hm.2
  · intro m hm hne
    simp only [delete_group_cascade, List.mem_filter]
    exact ⟨hm, by simpa using hne⟩
  · intro d hd
    simp only [delete_group_cascade, List.mem_filter] at hd
    simpa using hd.2
  · intro d hd hne
    simp only [delete_group_cascade, List.mem_filter]
    exact ⟨hd, by simpa using hne⟩
  · intro g hg
    simp only [delete_group_cascade, List.mem_filter] at hg
    simpa using hg.2

/-- Witness for C3: after deleting user 2 from the sample database, the
surviving membership row of user 1 does not reference user 2. -/
theorem c3_witness : (⟨1, 1, "admin", 5⟩ : HOAMembership).user_id ≠ 2 :=
  (c3_cascade_deletes sampleState 2 1).1 ⟨1, 1, "admin", 5⟩ (by decide)

theorem isPrefixB_iff (n : List Char) : ∀ h, isPrefixB n h = true ↔ ∃ r, h = n ++ r := by
  induction n with
  | nil => intro h; simp [isPrefixB]
  | cons a as ih =>
    intro h
    cases h with
    | nil => simp [isPrefixB]
    | cons b bs =>
      simp only [isPrefixB, Bool.and_eq_true, beq_iff_eq, ih bs]
      constructor
      · rintro ⟨rfl, r, rfl⟩
        exact ⟨r, rfl⟩
      · rintro ⟨r, hr⟩
        injection hr with h1 h2
        exact ⟨h1.symm, r, h2⟩

theorem containsSub_iff (n : List Char) : ∀ h, containsSub n h = true ↔ ∃ p r, h = p ++ n ++ r := by
  intro h
  induction h with
  | nil =>
    simp only [containsSub, List.isEmpty_iff]
    constructor
    · rintro rfl
      exact ⟨[], [], rfl⟩
    · rintro ⟨p, r, hh⟩
      rcases List.append_eq_nil.mp (List.append_eq_nil.mp hh.symm).1 with ⟨-, h2⟩
      exact h2
  | cons b bs ih =>
    simp only [containsSub, Bool.or_eq_true, isPrefixB_iff, ih]
    constructor
    · rintro (⟨r, hr⟩ | ⟨p, r, hr⟩)
      · exact ⟨[], r, by simpa using hr⟩
      · exact ⟨b :: p, r, by rw [List.cons_append, List.cons_append, ← hr]⟩
    · rintro ⟨p, r, hr⟩
      cases p with
      | nil => exact Or.inl ⟨r, by simpa using hr⟩
      | cons x xs =>
        rw [List.cons_append, List.cons_append] at hr
        injection hr with h1 h2
        exact Or.inr ⟨xs, r, h2⟩

theorem mem_user_group_ids (s : DBState) (u : User) (i : Nat) :
    i ∈ user_group_ids s u ↔
      ∃ m ∈ s.memberships, m.user_id = u.id ∧ m.hoa_group_id = i := by
  simp only [user_group_ids, List.mem_map, List.mem_filter, beq_iff_eq]
  constructor
  · rintro ⟨m, ⟨hm, hmu⟩, hi⟩
    exact ⟨m, hm, hmu, hi⟩
  · rintro ⟨m, hm, hmu, hi⟩
    exact ⟨m, ⟨hm, hmu⟩, hi⟩

/-- C4: for an existing user, searching with a blank (stripped) query returns
the empty list; otherwise the result holds only groups whose lowercased name
contains the lowercased query as a substring and in which the user holds no
membership, capped at 10 entries, and it contains every such group whenever
no truncation occurs. -/
theorem c4_search_groups (s : DBState) (uid : Nat) (u : User) (q : String)
    (hu : findUser s uid = some u) :
    (pyStrip q = "" → search_hoa_groups s uid q = .ok []) ∧
    (pyStrip q ≠ "" → ∃ l, search_hoa_groups s uid q = .ok l ∧
      l.length ≤ 10 ∧
      (∀ g ∈ l, g ∈ s.hoa_groups ∧
        (∃ p r, (strToLower g.name).data = p ++ (strToLower (pyStrip q)).data ++ r) ∧
        ¬ ∃ m ∈ s.memberships, m.user_id = u.id ∧ m.hoa_group_id = g.id) ∧
      ((s.hoa_groups.filter
          (fun g => icontains g.name (pyStrip q) &&
            !((user_group_ids s u).contains g.id))).length ≤ 10 →
        ∀ g ∈ s.hoa_groups,
          (∃ p r, (strToLower g.name).data = p ++ (strToLower (pyStrip q)).data ++ r) →
          (¬ ∃ m ∈ s.memberships, m.user_id = u.id ∧ m.hoa_group_id = g.id) →
          g ∈ l)) := by
  constructor
  · intro h
    simp [search_hoa_groups, hu, h]
  · intro hne
    have hres : search_hoa_groups s uid q =
        .ok ((s.hoa_groups.filter
          (fun g => icontains g.name (pyStrip q) &&
            !((user_group_ids s u).contains g.id))).take 10) := by
      simp [search_hoa_groups, hu, hne]
    refine ⟨_, hres, ?_, ?_, ?_⟩
    · rw [List.length_take]
      exact min_le_left _ _
    · intro g hg
      have hgf := List.mem_of_mem_take hg
      rcases List.mem_filter.mp hgf with ⟨hmem, hp⟩
      rw [Bool.and_eq_true] at hp
      rcases hp with ⟨hic, hnc⟩
      refine ⟨hmem, (containsSub_iff _ _).mp hic, ?_⟩
      rw [← mem_user_group_ids]
      simpa using hnc
    · intro hlen g hg hsub hnmem
      rw [List.take_of_length_le hlen]
      apply List.mem_filter.mpr
      refine ⟨hg, ?_⟩
      rw [Bool.and_eq_true]
      constructor
      · exact (containsSub_iff _ _).mpr hsub
      · rw [← mem_user_group_ids] at hnmem
        simpa using hnmem

/-- Witness for C4: user 3 of the sample database belongs to no group, and a
blank query yields the empty result. -/
theorem c4_witness : search_hoa_groups sampleState 3 " " = .ok [] :=
  (c4_search_groups sampleState 3 sampleUser3 (" ") (by decide)).1 (by decide)

theorem pyFalsyStr_iff (o : Option String) : pyFalsyStr o = true ↔ o = none ∨ o = some ("") := by
  cases o <;> simp [pyFalsyStr]

/-- C5: for an existing creator and non-empty fields, group creation fails
with duplicateName when the name is taken, with duplicateOwnerEmail when the
name is free but the owner email is taken (the state is unchanged in both
cases, so nothing is created), and otherwise creates the group together with
an admin-role membership for the creator, both present in the new state. -/
theorem c5_create_group (s : DBState) (now uid : Nat) (u : User) (n oe : String)
    (hu : findUser s uid = some u) (hn : n ≠ "") (he : oe ≠ "") :
    ((∃ g ∈ s.hoa_groups, g.name = n) →
      create_hoa_group s now uid (some n) (some oe) = (.duplicateName, s)) ∧
    ((¬ ∃ g ∈ s.hoa_groups, g.name = n) → (∃ g ∈ s.hoa_groups, g.owner_email = oe) →
      create_hoa_group s now uid (some n) (some oe) = (.duplicateOwnerEmail, s)) ∧
    ((¬ ∃ g ∈ s.hoa_groups, g.name = n) → (¬ ∃ g ∈ s.hoa_groups, g.owner_email = oe) →
      ∃ g s2, create_hoa_group s now uid (some n) (some oe) = (.ok g, s2) ∧
        g.name = n ∧ g.owner_email = oe ∧ g ∈ s2.hoa_groups ∧
        ∃ m ∈ s2.memberships, m.user_id = u.id ∧ m.hoa_group_id = g.id ∧ m.role = "admin") := by
  have hfalsy : (pyFalsyStr (some n) || pyFalsyStr (some oe)) = false := by
    simp [pyFalsyStr, hn, he]
  refine ⟨?_, ?_, ?_⟩
  · rintro ⟨g, hgmem, hgname⟩
    have hany : (s.hoa_groups.any fun g => g.name == n) = true :=
      List.any_eq_true.mpr ⟨g, hgmem, by simp [hgname]⟩
    simp [create_hoa_group, hu, hfalsy, hany]
  · intro hno hex
    have hanyn : (s.hoa_groups.any fun g => g.name == n) = false := by
      rw [List.any_eq_false]
      intro g hgmem
      simp only [beq_iff_eq]
      intro hq
      exact hno ⟨g, hgmem, hq⟩
    rcases hex with ⟨g, hgmem, hgoe⟩
    have hany : (s.hoa_groups.any fun g => g.owner_email == oe) = true :=
      List.any_eq_true.mpr ⟨g, hgmem, by simp [hgoe]⟩
    simp [create_hoa_group, hu, hfalsy, hanyn, hany]
  · intro hno hnoe
    have hanyn : (s.hoa_groups.any fun g => g.name == n) = false := by
      rw [List.any_eq_false]
      intro g hgmem
      simp only [beq_iff_eq]
      intro hq
      exact hno ⟨g, hgmem, hq⟩
    have hanye : (s.hoa_groups.any fun g => g.owner_email == oe) = false := by
      rw [List.any_eq_false]
      intro g hgmem
      simp only [beq_iff_eq]
      intro hq
      exact hnoe ⟨g, hgmem, hq⟩
    refine ⟨⟨s.next_group_id, n, oe⟩,
      { s with hoa_groups := s.hoa_groups ++ [⟨s.next_group_id, n, oe⟩],
               memberships := s.memberships ++ [⟨u.id, s.next_group_id, "admin", now⟩],
               next_group_id := s.next_group_id + 1 },
      ?_, rfl, rfl, by simp, ⟨u.id, s.next_group_id, "admin", now⟩, by simp, rfl, rfl, rfl⟩
    simp [create_hoa_group, hu, hfalsy, hanyn, hanye]

/-- Witness for C5: creating a group with the already-taken name of group 1
of the sample database fails with duplicateName and changes nothing. -/
theorem c5_witness :
    create_hoa_group sampleState 40 1 (some ("Oak HOA")) (some ("new@x.com")) =
      (.duplicateName, sampleState) :=
  (c5_create_group sampleState 40 1 sampleUser1 ("Oak HOA") ("new@x.com")
      (by decide) (by decide) (by decide)).1 ⟨sampleGroup1, by decide, rfl⟩

/-- C6: with both fields supplied, a login failure is the bare
invalidCredentials value whether the email is unknown or the email exists and
the credential check fails; the two failing runs are observationally equal,
and any run returns either invalidCredentials or just the id and email of the
matching user — the stored hash appears in no outcome. -/
theorem c6_login_uniform_failure (check check2 : String → String → Bool)
    (s s2 : DBState) (e p e2 p2 : String)
    (he : e ≠ "") (hp : p ≠ "") (he2 : e2 ≠ "") (hp2 : p2 ≠ "") :
    (findUserByEmail s e = none →
      login_user check s (some e) (some p) = .invalidCredentials) ∧
    (∀ u, findUserByEmail s e = some u → check p u.passwordHash = false →
      login_user check s (some e) (some p) = .invalidCredentials) ∧
    (findUserByEmail s e = none →
      (∃ u, findUserByEmail s2 e2 = some u ∧ check2 p2 u.passwordHash = false) →
      login_user check s (some e) (some p) = login_user check2 s2 (some e2) (some p2)) ∧
    (login_user check s (some e) (some p) = .invalidCredentials ∨
      ∃ u ∈ s.users, u.email = e ∧
        login_user check s (some e) (some p) = .ok u.id u.email) := by
  have h1 : findUserByEmail s e = none →
      login_user check s (some e) (some p) = .invalidCredentials := by
    intro hn
    simp [login_user, pyFalsyStr, he, hp, hn]
  have h2 : ∀ u, findUserByEmail s e = some u → check p u.passwordHash = false →
      login_user check s (some e) (some p) = .invalidCredentials := by
    intro u hfu hc
    simp [login_user, pyFalsyStr, he, hp, hfu, hc]
  refine ⟨h1, h2, ?_, ?_⟩
  · intro hn hex
    rcases hex with ⟨u, hfu, hc⟩
    rw [h1 hn]
    have : login_user check2 s2 (some e2) (some p2) = .invalidCredentials := by
      simp [login_user, pyFalsyStr, he2, hp2, hfu, hc]
    rw [this]
  · cases hfind : findUserByEmail s e with
    | none => exact Or.inl (h1 hfind)
    | some u =>
      by_cases hc : check p u.passwordHash = true
      · refine Or.inr ⟨u, List.mem_of_find?_eq_some hfind, ?_, ?_⟩
        · have := List.find?_some hfind
          simpa [beq_iff_eq] using this
        · simp [login_user, pyFalsyStr, he, hp, hfind, hc]
      · exact Or.inl (h2 u hfind (by rwa [Bool.not_eq_true] at hc))

/-- Witness for C6: in the sample database the email nobody@x.com is unknown
and the login fails with the bare invalidCredentials value. -/
theorem c6_witness :
    login_user (fun p h => p == h) sampleState (some ("nobody@x.com")) (some ("pw")) =
      .invalidCredentials :=
  (c6_login_uniform_failure (fun p h => p == h) (fun p h => p == h) sampleState sampleState
      ("nobody@x.com") ("pw") ("b@x.com") ("wrong")
      (by decide) (by decide) (by decide) (by decide)).1 (by decide)

/-- C7: once the group and the acting user are resolved, a document update
has exactly four outcomes: documentNotFound, notAdmin, missingTitle — each
leaving the state, and hence every document, unchanged — or success, where
the title and content of the stored document are replaced and its
updated-timestamp is set to the current time while its creation time and id
are kept. -/
theorem c7_update_outcome_space (s : DBState) (now gid did : Nat) (g : HOAGroup) (u : User)
    (title content : Option String)
    (hg : findGroup s gid = some g) (hu0 : u.id ≠ 0) (hu : findUser s u.id = some u) :
    update_document s now gid did title content (some u.id) = (.documentNotFound, s) ∨
    update_document s now gid did title content (some u.id) = (.notAdmin, s) ∨
    update_document s now gid did title content (some u.id) = (.missingTitle, s) ∨
    ∃ d s2, update_document s now gid did title content (some u.id) = (.ok d, s2) ∧
      d.updated_at = now ∧ d.title = title.getD ("") ∧ d.content = content.getD ("") ∧
      ∃ doc, findDocInGroup s did g = some doc ∧
        d.created_at = doc.created_at ∧ d.id = doc.id := by
  cases hdoc : findDocInGroup s did g with
  | none => exact Or.inl (by simp [update_document, hg, hdoc])
  | some doc =>
    by_cases ha : is_admin s g u = true
    · by_cases ht : pyFalsyStr title = true
      · exact Or.inr (Or.inr (Or.inl
          (by simp [update_document, hg, hdoc, pyFalsyNat, hu0, hu, ha, ht])))
      · refine Or.inr (Or.inr (Or.inr
          ⟨{ doc with title := title.getD (""), content := content.getD (""), updated_at := now },
           { s with documents := s.documents.map (fun d =>
               if d.id == doc.id then
                 { doc with title := title.getD (""), content := content.getD (""),
                            updated_at := now }
               else d) },
           ?_, rfl, rfl, rfl, doc, rfl, rfl, rfl⟩))
        simp [update_document, hg, hdoc, pyFalsyNat, hu0, hu, ha, ht]
    · have ha2 : is_admin s g u = false := by
        rwa [Bool.not_eq_true] at ha
      exact Or.inr (Or.inl
        (by simp [update_document, hg, hdoc, pyFalsyNat, hu0, hu, ha2]))

/-- Witness for C7: admin user 1 updating document 1 of group 1 in the sample
database falls into the stated outcome space. -/
theorem c7_witness :
    update_document sampleState 50 1 1 (some ("NewT")) none (some sampleUser1.id) =
        (.documentNotFound, sampleState) ∨
    update_document sampleState 50 1 1 (some ("NewT")) none (some sampleUser1.id) =
        (.notAdmin, sampleState) ∨
    update_document sampleState 50 1 1 (some ("NewT")) none (some sampleUser1.id) =
        (.missingTitle, sampleState) ∨
    ∃ d s2, update_document sampleState 50 1 1 (some ("NewT")) none (some sampleUser1.id) =
        (.ok d, s2) ∧
      d.updated_at = 50 ∧ d.title = (some ("NewT")).getD ("") ∧
      d.content = (none : Option String).getD ("") ∧
      ∃ doc, findDocInGroup sampleState 1 sampleGroup1 = some doc ∧
        d.created_at = doc.created_at ∧ d.id = doc.id :=
  c7_update_outcome_space sampleState 50 1 1 sampleGroup1 sampleUser1 (some ("NewT")) none
    (by decide) (by decide) (by decide)

/-- C8: listing the documents of an existing group returns a permutation of
exactly the document rows of that group, sorted by creation time in descending
order (most recently created first). -/
theorem c8_list_documents (s : DBState) (gid : Nat) (g : HOAGroup)
    (hg : findGroup s gid = some g) :
    ∃ l, list_documents s gid = .ok l ∧
      List.Perm l (s.documents.filter (fun d => d.hoa_group_id == g.id)) ∧
      List.Sorted (fun a b => b.created_at ≤ a.created_at) l ∧
      (∀ d, d ∈ l ↔ d ∈ s.documents ∧ d.hoa_group_id = g.id) := by
  have hperm : List.Perm (group_documents s g)
      (s.documents.filter (fun d => d.hoa_group_id == g.id)) := by
    unfold group_documents orderByCreatedDesc
    exact List.perm_insertionSort _ _
  refine ⟨group_documents s g, by simp [list_documents, hg], hperm, ?_, ?_⟩
  · unfold group_documents orderByCreatedDesc
    exact List.sorted_insertionSort _ _
  · intro d
    rw [hperm.mem_iff, List.mem_filter]
    simp [beq_iff_eq]

/-- Witness for C8: listing the documents of group 1 of the sample database. -/
theorem c8_witness :
    ∃ l, list_documents sampleState 1 = .ok l ∧
      List.Perm l (sampleState.documents.filter (fun d => d.hoa_group_id == sampleGroup1.id)) ∧
      List.Sorted (fun a b => b.created_at ≤ a.created_at) l ∧
      (∀ d, d ∈ l ↔ d ∈ sampleState.documents ∧ d.hoa_group_id = sampleGroup1.id) :=
  c8_list_documents sampleState 1 sampleGroup1 (by decide)

/-- C9: for an admin acting user, document create and update succeed with the
content field absent, storing the empty string as content (given a non-empty
title); and the missingTitle failure occurs exactly when the title field is
absent or the empty string, regardless of the content field. -/
theorem c9_content_optional (s : DBState) (now gid did : Nat) (g : HOAGroup) (u : User)
    (t : String) (ht : t ≠ "")
    (hg : findGroup s gid = some g) (hu0 : u.id ≠ 0) (hu : findUser s u.id = some u)
    (ha : is_admin s g u = true) :
    (∃ d s2, create_document s now gid (some t) none (some u.id) = (.ok d, s2) ∧
      d.content = "" ∧ d.title = t) ∧
    (∀ title content r s2,
      create_document s now gid title content (some u.id) = (r, s2) →
      (r = .missingTitle ↔ (title = none ∨ title = some ("")))) ∧
    (∀ doc, findDocInGroup s did g = some doc →
      ∃ d s2, update_document s now gid did (some t) none (some u.id) = (.ok d, s2) ∧
        d.content = "" ∧ d.title = t) ∧
    (∀ doc, findDocInGroup s did g = some doc →
      ∀ title content r s2,
        update_document s now gid did title content (some u.id) = (r, s2) →
        (r = .missingTitle ↔ (title = none ∨ title = some ("")))) := by
  have hft : pyFalsyStr (some t) = false := by
    simp [pyFalsyStr, ht]
  refine ⟨?_, ?_, ?_, ?_⟩
  · refine ⟨⟨s.next_document_id, t, "", g.id, now, now⟩,
      { s with documents := s.documents ++ [⟨s.next_document_id, t, "", g.id, now, now⟩],
               next_document_id := s.next_document_id + 1 }, ?_, rfl, rfl⟩
    simp [create_document, hg, pyFalsyNat, hu0, hu, ha, hft]
  · intro title content r s2 h
    by_cases htf : pyFalsyStr title = true
    · have hres : create_document s now gid title content (some u.id) = (.missingTitle, s) := by
        simp [create_document, hg, pyFalsyNat, hu0, hu, ha, htf]
      rw [hres, Prod.mk.injEq] at h
      exact iff_of_true h.1.symm ((pyFalsyStr_iff title).mp htf)
    · have hres : create_document s now gid title content (some u.id) =
          (.ok ⟨s.next_document_id, title.getD (""), content.getD (""), g.id, now, now⟩,
           { s with documents := s.documents ++ [⟨s.next_document_id, title.getD (""), content.getD (""), g.id, now, now⟩],
                    next_document_id := s.next_document_id + 1 }) := by
        simp [create_document, hg, pyFalsyNat, hu0, hu, ha, htf]
      rw [hres, Prod.mk.injEq] at h
      refine iff_of_false ?_ ?_
      · rw [← h.1]
        simp
      · intro hc
        exact htf ((pyFalsyStr_iff title).mpr hc)
  · intro doc hdoc
    refine ⟨{ doc with title := t, content := "", updated_at := now },
      { s with documents := s.documents.map (fun d =>
          if d.id == doc.id then { doc with title := t, content := "", updated_at := now }
          else d) }, ?_, rfl, rfl⟩
    simp [update_document, hg, hdoc, pyFalsyNat, hu0, hu, ha, hft]
  · intro doc hdoc title content r s2 h
    by_cases htf : pyFalsyStr title = true
    · have hres : update_document s now gid did title content (some u.id) =
          (.missingTitle, s) := by
        simp [update_document, hg, hdoc, pyFalsyNat, hu0, hu, ha, htf]
      rw [hres, Prod.mk.injEq] at h
      exact iff_of_true h.1.symm ((pyFalsyStr_iff title).mp htf)
    · have hres : update_document s now gid did title content (some u.id) =
          (.ok { doc with title := title.getD (""), content := content.getD (""),
                          updated_at := now },
           { s with documents := s.documents.map (fun d =>
               if d.id == doc.id then
                 { doc with title := title.getD (""), content := content.getD (""),
                            updated_at := now }
               else d) }) := by
        simp [update_document, hg, hdoc, pyFalsyNat, hu0, hu, ha, htf]
      rw [hres, Prod.mk.injEq] at h
      refine iff_of_false ?_ ?_
      · rw [← h.1]
        simp
      · intro hc
        exact htf ((pyFalsyStr_iff title).mpr hc)

/-- Witness for C9: admin user 1 creates a document in group 1 of the sample
database with the content field absent; it succeeds with empty content. -/
theorem c9_witness :
    ∃ d s2, create_document sampleState 70 1 (some ("Pets")) none (some sampleUser1.id) =
      (.ok d, s2) ∧ d.content = "" ∧ d.title = "Pets" :=
  (c9_content_optional sampleState 70 1 1 sampleGroup1 sampleUser1 ("Pets")
      (by decide) (by decide) (by decide) (by decide) (by decide)).1

/-- C10: for delete and update, the document is resolved by id within the
group named in the request; when no document of that id belongs to that
group — even if a document with the id exists in another group — the result
is documentNotFound for every caller (absent, unknown, non-admin or admin
user id alike), and the state is unchanged. -/
theorem c10_document_resolution_scoped (s : DBState) (now gid did : Nat) (g : HOAGroup)
    (hg : findGroup s gid = some g)
    (hnd : ∀ d ∈ s.documents, ¬ (d.id = did ∧ d.hoa_group_id = g.id)) :
    ∀ user_id title content,
      delete_document s gid did user_id = (.documentNotFound, s) ∧
      update_document s now gid did title content user_id = (.documentNotFound, s) := by
  have hfind : findDocInGroup s did g = none := by
    unfold findDocInGroup
    rw [List.find?_eq_none]
    intro d hd
    simp only [Bool.and_eq_true, beq_iff_eq]
    intro hc
    exact hnd d hd hc
  intro user_id title content
  exact ⟨by simp [delete_document, hg, hfind], by simp [update_document, hg, hfind]⟩

/-- Witness for C10: document 2 of the sample database exists but belongs to
group 2; a delete or update naming group 1 fails with documentNotFound even
for user 1, who is an admin of group 1. -/
theorem c10_witness :
    delete_document sampleState 1 2 (some 1) = (.documentNotFound, sampleState) ∧
    update_document sampleState 60 1 2 (some ("T")) none (some 1) =
      (.documentNotFound, sampleState) :=
  c10_document_resolution_scoped sampleState 60 1 2 sampleGroup1 (by decide) (by decide)
    (some 1) (some ("T")) none
